import Mathlib

/-!
Shallow embedding of the ST telemetry pipeline
(src/database.py, src/alerts.py, src/app.py,
src/focusst_telemetry/gateway/broadcaster.py).

Numeric sensor values, thresholds and timestamps are modelled as rationals;
the SQLite tables `telemetry_data` and `alert_history` as lists of rows
appended in insertion order; `datetime.now()` as an explicit clock argument
`now` supplied by the caller.
-/

/-- One row of the `telemetry_data` table
(columns session_id, timestamp, pid, value, unit). -/
structure TelemetryRow where
  session_id : String
  timestamp : ℚ
  pid : String
  value : ℚ
  unit : String
deriving DecidableEq, Repr

/-- One row of the `alert_history` table, as written by `Database.log_alert`. -/
structure AlertHistoryRow where
  alert_config_id : ℕ
  session_id : String
  timestamp : ℚ
  pid : String
  value : ℚ
  message : String
deriving DecidableEq, Repr

/-- One row of the `alert_configs` table, as returned by `Database.get_alerts`. -/
structure AlertConfig where
  id : ℕ
  name : String
  pid : String
  condition : String
  threshold : ℚ
  enabled : Bool
  email_notify : Bool
deriving DecidableEq, Repr

/-- `Database.insert_telemetry`: appends one row; when no timestamp is
supplied the store uses its own clock (`datetime.now()`, here `now`). -/
def Database.insert_telemetry (rows : List TelemetryRow) (session_id : String)
    (pid : String) (value : ℚ) (unit : String) (timestamp : Option ℚ) (now : ℚ) :
    List TelemetryRow :=
  let ts : ℚ :=
    match timestamp with
    | none => now
    | some t => t
  rows ++ [⟨session_id, ts, pid, value, unit⟩]

/-- Ordering used by `ORDER BY timestamp DESC`. -/
def tsDesc (a b : TelemetryRow) : Prop := b.timestamp ≤ a.timestamp

/-- Ordering used by `ORDER BY timestamp ASC`. -/
def tsAsc (a b : TelemetryRow) : Prop := a.timestamp ≤ b.timestamp

instance : DecidableRel tsDesc := fun a b =>
  inferInstanceAs (Decidable (b.timestamp ≤ a.timestamp))

instance : DecidableRel tsAsc := fun a b =>
  inferInstanceAs (Decidable (a.timestamp ≤ b.timestamp))

instance : IsTotal TelemetryRow tsDesc := ⟨fun a b => le_total b.timestamp a.timestamp⟩

instance : IsTrans TelemetryRow tsDesc := ⟨fun _ _ _ h1 h2 => le_trans h2 h1⟩

instance : IsTotal TelemetryRow tsAsc := ⟨fun a b => le_total a.timestamp b.timestamp⟩

instance : IsTrans TelemetryRow tsAsc := ⟨fun _ _ _ h1 h2 => le_trans h1 h2⟩

/-- `Database.get_recent_telemetry`:
`SELECT ... WHERE session_id = ? AND timestamp > ? ORDER BY timestamp DESC`
with cutoff `now - seconds`. -/
def Database.get_recent_telemetry (rows : List TelemetryRow) (session_id : String)
    (now : ℚ) (seconds : ℚ) : List TelemetryRow :=
  let cutoff := now - seconds
  List.insertionSort tsDesc
    (rows.filter (fun r => r.session_id == session_id && decide (cutoff < r.timestamp)))

/-- `Database.get_session_data`:
`SELECT ... WHERE session_id = ?` plus `AND timestamp >= ?` when a start bound
is passed and `AND timestamp <= ?` when an end bound is passed,
`ORDER BY timestamp ASC`. -/
def Database.get_session_data (rows : List TelemetryRow) (session_id : String)
    (start_time : Option ℚ) (end_time : Option ℚ) : List TelemetryRow :=
  List.insertionSort tsAsc
    (rows.filter (fun r => r.session_id == session_id
      && (match start_time with
          | some s => decide (s ≤ r.timestamp)
          | none => true)
      && (match end_time with
          | some e => decide (r.timestamp ≤ e)
          | none => true)))

/-- `Database.get_alerts`: `SELECT ... FROM alert_configs` with
`WHERE enabled = 1` when `enabled_only` is set. -/
def Database.get_alerts (alert_configs : List AlertConfig) (enabled_only : Bool) :
    List AlertConfig :=
  if enabled_only then alert_configs.filter (fun a => a.enabled) else alert_configs

/-- `Database.log_alert`: append-only insert into `alert_history`,
timestamped with the store clock. -/
def Database.log_alert (history : List AlertHistoryRow) (alert_config_id : ℕ)
    (session_id : String) (pid : String) (value : ℚ) (message : String) (now : ℚ) :
    List AlertHistoryRow :=
  history ++ [⟨alert_config_id, session_id, now, pid, value, message⟩]

/-- `AlertEvaluator.CONDITION_OPS`: the string-keyed dispatch table mapping the
six condition names to exact comparison operators; unknown keys are absent
(`dict.get` returns `None`). -/
def AlertEvaluator.CONDITION_OPS (cond : String) : Option (ℚ → ℚ → Bool) :=
  match cond with
  | "gt" => some (fun v t => decide (v > t))
  | "gte" => some (fun v t => decide (v ≥ t))
  | "lt" => some (fun v t => decide (v < t))
  | "lte" => some (fun v t => decide (v ≤ t))
  | "eq" => some (fun v t => decide (v = t))
  | "neq" => some (fun v t => decide (v ≠ t))
  | _ => none

/-- `AlertEvaluator.load_alerts`: replaces the active rule set with
`db.get_alerts(enabled_only=True)` — a plain fetch, with no validation of the
condition strings and no error reporting. -/
def AlertEvaluator.load_alerts (db_alert_configs : List AlertConfig) : List AlertConfig :=
  Database.get_alerts db_alert_configs true

/-- The single-quote character used in the alert message f-string. -/
def squote : String := String.singleton (Char.ofNat 39)

/-- The message `f"Alert {name}: {pid} = {value} {condition} {threshold}"`
(with the rule name single-quoted). -/
def alertMessage (name : String) (pid : String) (value : ℚ) (condition : String)
    (threshold : ℚ) : String :=
  "Alert " ++ squote ++ name ++ squote ++ ": " ++ pid ++ " = " ++ toString value
    ++ " " ++ condition ++ " " ++ toString threshold

/-- The dict appended to `triggered_alerts` for each rule that fires. -/
structure AlertData where
  alert_id : ℕ
  name : String
  pid : String
  value : ℚ
  threshold : ℚ
  condition : String
  message : String
  timestamp : ℚ
deriving DecidableEq, Repr

/-- `AlertEvaluator.evaluate`: walks the loaded configs in order; a config
whose pid differs from the reading's pid is skipped, a config whose condition
is not in `CONDITION_OPS` is skipped, and each config whose operator holds on
`(value, threshold)` is logged to `alert_history` and appended to the returned
`triggered_alerts` list. Returns the triggered list and the updated history. -/
def AlertEvaluator.evaluate (alert_configs : List AlertConfig)
    (history : List AlertHistoryRow) (session_id : String) (pid : String)
    (value : ℚ) (now : ℚ) : List AlertData × List AlertHistoryRow :=
  match alert_configs with
  | [] => ([], history)
  | alert :: rest =>
    if alert.pid != pid then
      AlertEvaluator.evaluate rest history session_id pid value now
    else
      match AlertEvaluator.CONDITION_OPS alert.condition with
      | none => AlertEvaluator.evaluate rest history session_id pid value now
      | some condition_op =>
        if condition_op value alert.threshold then
          let message := alertMessage alert.name pid value alert.condition alert.threshold
          let history2 := Database.log_alert history alert.id session_id pid value message now
          let alert_data : AlertData :=
            ⟨alert.id, alert.name, pid, value, alert.threshold, alert.condition, message, now⟩
          let res := AlertEvaluator.evaluate rest history2 session_id pid value now
          (alert_data :: res.1, res.2)
        else
          AlertEvaluator.evaluate rest history session_id pid value now

/-- A rule fires on a reading: its pid matches, its condition is a known
operator, and that operator holds on `(value, threshold)`. Characterises which
configs produce an event in `AlertEvaluator.evaluate`. -/
def ruleFires (pid : String) (value : ℚ) (a : AlertConfig) : Bool :=
  a.pid == pid &&
    match AlertEvaluator.CONDITION_OPS a.condition with
    | some op => op value a.threshold
    | none => false

/-- The `AlertData` dict built for a firing config. -/
def mkAlertData (pid : String) (value : ℚ) (now : ℚ) (a : AlertConfig) : AlertData :=
  ⟨a.id, a.name, pid, value, a.threshold, a.condition,
    alertMessage a.name pid value a.condition a.threshold, now⟩

/-- The `alert_history` row written for a firing config. -/
def mkHistoryRow (session_id : String) (pid : String) (value : ℚ) (now : ℚ)
    (a : AlertConfig) : AlertHistoryRow :=
  ⟨a.id, session_id, now, pid, value,
    alertMessage a.name pid value a.condition a.threshold⟩

/-- N consecutive independent evaluations of the same reading against the same
loaded rule set, threading the alert-history store through the calls and
collecting every triggered event. -/
def evaluateRun (alert_configs : List AlertConfig) (history : List AlertHistoryRow)
    (session_id : String) (pid : String) (value : ℚ) (now : ℚ) :
    ℕ → List AlertData × List AlertHistoryRow
  | 0 => ([], history)
  | n + 1 =>
    let res := AlertEvaluator.evaluate alert_configs history session_id pid value now
    let rest := evaluateRun alert_configs res.2 session_id pid value now n
    (res.1 ++ rest.1, rest.2)

/-- One subscriber queue of the gateway broadcaster: `asyncio.Queue(maxsize=K)`
holding undelivered payloads. -/
structure ClientQueue (α : Type) where
  items : List α
  maxsize : ℕ
deriving DecidableEq, Repr

/-- `asyncio.Queue.full()`: true when the queue is bounded and holds at least
`maxsize` items. -/
def ClientQueue.full (q : ClientQueue α) : Bool :=
  0 < q.maxsize && q.maxsize ≤ q.items.length

/-- `asyncio.Queue.put_nowait`: appends when not full, raises `QueueFull`
(modelled as `none`) when full. -/
def ClientQueue.putNowait (q : ClientQueue α) (x : α) : Option (ClientQueue α) :=
  if q.full then none else some ⟨q.items ++ [x], q.maxsize⟩

/-- `Broadcaster.register`: adds a fresh client with an empty
`asyncio.Queue(maxsize=100)`; clients are keyed by an identity token since the
Python set holds distinct queue objects. -/
def Broadcaster.register (clients : List (ℕ × ClientQueue α)) (cid : ℕ) :
    List (ℕ × ClientQueue α) :=
  clients ++ [(cid, ⟨[], 100⟩)]

/-- `Broadcaster.broadcast`: for every client attempt `put_nowait`; a client
whose queue is full is collected in `clients_to_remove` and discarded from the
set after the loop, every other client keeps its queue with the payload
appended. -/
def Broadcaster.broadcast (data : α) (clients : List (ℕ × ClientQueue α)) :
    List (ℕ × ClientQueue α) :=
  clients.filterMap (fun c =>
    match c.2.putNowait data with
    | some q2 => some (c.1, q2)
    | none => none)

/-- A sequence of `broadcast` calls, one per payload, in order. -/
def Broadcaster.broadcastSeq (payloads : List α) (clients : List (ℕ × ClientQueue α)) :
    List (ℕ × ClientQueue α) :=
  payloads.foldl (fun cs p => Broadcaster.broadcast p cs) clients

/-- Outcome of `CloudSync.push` for the caller. -/
inductive PushResult (α : Type) where
  | noop : PushResult α
  | enqueued : List α → PushResult α
  | blocked : PushResult α
  | dropped : PushResult α
deriving DecidableEq, Repr

/-- `CloudSync.push`: returns immediately when sync is disabled; otherwise
`await self.queue.put(data)` on the `maxsize=1000` queue — which appends when a
slot is free and SUSPENDS THE CALLER when the queue is full. `Queue.put` never
raises `QueueFull` (only `put_nowait` does), so the
`except asyncio.QueueFull: print("Cloud sync queue full, dropping data")`
branch (`PushResult.dropped`) is unreachable. -/
def CloudSync.push (enabled : Bool) (queue : List α) (data : α) : PushResult α :=
  if !enabled then PushResult.noop
  else if 0 < 1000 ∧ 1000 ≤ queue.length then PushResult.blocked
  else PushResult.enqueued (queue ++ [data])

/-- One data point produced by the Reading Source (`OBDSimulator.read_pid`):
pid, value, unit and a source-side timestamp taken when the sample was read. -/
structure DataPoint where
  pid : String
  value : ℚ
  unit : String
  timestamp : ℚ
deriving DecidableEq, Repr

/-- The pipeline-visible state mutated by `telemetry_stream_worker`:
the telemetry store, the alert-history store, and the sequence of payloads
handed to `manager.broadcast` (each a data point enriched with its alerts). -/
structure PipelineState where
  telemetry_data : List TelemetryRow
  alert_history : List AlertHistoryRow
  broadcasts : List (DataPoint × List AlertData)
deriving DecidableEq, Repr

/-- The body of `telemetry_stream_worker` for one data point:
`db.insert_telemetry(session, pid, value, unit)` — note: no timestamp
argument, and no try/except — then `alert_evaluator.evaluate`, then attach the
triggered alerts and broadcast. `insert_ok` models whether the underlying
store write succeeds; a failed insert raises, so nothing is stored, evaluated
or broadcast for that point (`none`). -/
def processDataPoint (alert_configs : List AlertConfig) (session_id : String)
    (st : PipelineState) (dp : DataPoint) (insert_ok : Bool) (now : ℚ) :
    Option PipelineState :=
  if !insert_ok then none
  else
    let telemetry2 :=
      Database.insert_telemetry st.telemetry_data session_id dp.pid dp.value dp.unit none now
    let res := AlertEvaluator.evaluate alert_configs st.alert_history session_id dp.pid dp.value now
    some ⟨telemetry2, res.2, st.broadcasts ++ [(dp, res.1)]⟩

/-- The per-batch loop of `telemetry_stream_worker`: processes the points in
order; an exception from any point propagates out of the loop (there is no
per-reading try/except), so processing stops there — the state reached so far
is returned together with `some error`, and later points are never touched. -/
def telemetry_stream_worker (alert_configs : List AlertConfig) (session_id : String)
    (st : PipelineState) : List (DataPoint × Bool × ℚ) → PipelineState × Option String
  | [] => (st, none)
  | (dp, insert_ok, now) :: rest =>
    match processDataPoint alert_configs session_id st dp insert_ok now with
    | some st2 => telemetry_stream_worker alert_configs session_id st2 rest
    | none => (st, some "insert_telemetry failed")

/-- Characterisation of `AlertEvaluator.evaluate`: the triggered list is
exactly one `AlertData` per config that fires, in config order, and the
history gains exactly one row per triggered event. -/
theorem evaluate_eq_filter (alert_configs : List AlertConfig)
    (history : List AlertHistoryRow) (session_id : String) (pid : String)
    (value : ℚ) (now : ℚ) :
    AlertEvaluator.evaluate alert_configs history session_id pid value now
      = ((alert_configs.filter (ruleFires pid value)).map (mkAlertData pid value now),
         history ++ (alert_configs.filter (ruleFires pid value)).map
           (mkHistoryRow session_id pid value now)) := by
  induction alert_configs generalizing history with
  | nil => simp [AlertEvaluator.evaluate]
  | cons a rest ih =>
    by_cases hpid : a.pid = pid
    · rcases hops : AlertEvaluator.CONDITION_OPS a.condition with _ | op
      · have hf : ruleFires pid value a = false := by
          simp [ruleFires, hpid, hops]
        simp [AlertEvaluator.evaluate, hpid, hops, ih, List.filter_cons, hf]
      · by_cases hop : op value a.threshold = true
        · have hf : ruleFires pid value a = true := by
            simp [ruleFires, hpid, hops, hop]
          simp [AlertEvaluator.evaluate, hpid, hops, hop, ih, List.filter_cons, hf,
            Database.log_alert, mkAlertData, mkHistoryRow]
        · have hf : ruleFires pid value a = false := by
            simp [ruleFires, hpid, hops]
            simpa using hop
          simp [AlertEvaluator.evaluate, hpid, hops, hop, ih, List.filter_cons, hf]
    · have hf : ruleFires pid value a = false := by
        simp [ruleFires, hpid]
      simp [AlertEvaluator.evaluate, hpid, ih, List.filter_cons, hf]

/-- A single rule triggers on a reading: evaluating the reading against just
that rule returns a non-empty triggered list. -/
def triggersAlert (a : AlertConfig) (session_id : String) (reading_pid : String)
    (value : ℚ) (now : ℚ) : Prop :=
  (AlertEvaluator.evaluate [a] [] session_id reading_pid value now).1 ≠ []

/-- C1: for every reading and rule whose pid equals the reading's pid,
`evaluate` applies exactly the operator semantics gt: value > threshold,
gte: value >= threshold, lt: value < threshold, lte: value <= threshold,
eq: value == threshold, neq: value != threshold, with exact (no-tolerance)
comparison; in particular a rule (pid="BOOST", condition="gt", threshold=20)
triggers for value 21 and does not trigger for value 20 or 15. -/
theorem evaluate_condition_operator_semantics (v t now : ℚ) (i : ℕ)
    (nm s p : String) (en notif : Bool) :
    (triggersAlert ⟨i, nm, p, "gt", t, en, notif⟩ s p v now ↔ v > t)
    ∧ (triggersAlert ⟨i, nm, p, "gte", t, en, notif⟩ s p v now ↔ v ≥ t)
    ∧ (triggersAlert ⟨i, nm, p, "lt", t, en, notif⟩ s p v now ↔ v < t)
    ∧ (triggersAlert ⟨i, nm, p, "lte", t, en, notif⟩ s p v now ↔ v ≤ t)
    ∧ (triggersAlert ⟨i, nm, p, "eq", t, en, notif⟩ s p v now ↔ v = t)
    ∧ (triggersAlert ⟨i, nm, p, "neq", t, en, notif⟩ s p v now ↔ v ≠ t)
    ∧ triggersAlert ⟨1, "boost", "BOOST", "gt", 20, true, false⟩ "S" "BOOST" 21 0
    ∧ ¬ triggersAlert ⟨1, "boost", "BOOST", "gt", 20, true, false⟩ "S" "BOOST" 20 0
    ∧ ¬ triggersAlert ⟨1, "boost", "BOOST", "gt", 20, true, false⟩ "S" "BOOST" 15 0 := by
  refine ⟨?_, ?_, ?_, ?_, ?_, ?_, ?_, ?_, ?_⟩ <;>
    simp [triggersAlert, evaluate_eq_filter, List.filter_cons, ruleFires,
      AlertEvaluator.CONDITION_OPS] <;> norm_num

/-- Over `n` consecutive evaluations the collected triggered list has exactly
`n` times the per-call event count; each call is independent of the threaded
history. -/
theorem evaluateRun_length (alert_configs : List AlertConfig)
    (history : List AlertHistoryRow) (s p : String) (v now : ℚ) (n : ℕ) :
    (evaluateRun alert_configs history s p v now n).1.length
      = n * (alert_configs.filter (ruleFires p v)).length := by
  induction n generalizing history with
  | zero => simp [evaluateRun]
  | succ m ih =>
    simp [evaluateRun, evaluate_eq_filter, ih, Nat.succ_mul, Nat.add_comm]

/-- C2: evaluating a reading against the loaded (enabled-only) rule set
produces exactly one event per enabled rule whose pid matches and whose
condition holds, records exactly one alert-history row per event, and is
stateless across calls: n consecutive evaluations of the same reading yield
n times the events. -/
theorem evaluate_one_event_per_firing_rule (db_alert_configs : List AlertConfig)
    (history : List AlertHistoryRow) (s p : String) (v now : ℚ) :
    ((AlertEvaluator.evaluate (AlertEvaluator.load_alerts db_alert_configs)
        history s p v now).1.length
      = (db_alert_configs.filter (fun a => a.enabled && ruleFires p v a)).length)
    ∧ ((AlertEvaluator.evaluate (AlertEvaluator.load_alerts db_alert_configs)
        history s p v now).2
      = history ++ ((AlertEvaluator.evaluate (AlertEvaluator.load_alerts db_alert_configs)
          history s p v now).1).map
            (fun d => ⟨d.alert_id, s, now, d.pid, d.value, d.message⟩))
    ∧ (∀ n : ℕ,
        (evaluateRun (AlertEvaluator.load_alerts db_alert_configs) history s p v now n).1.length
          = n * (AlertEvaluator.evaluate (AlertEvaluator.load_alerts db_alert_configs)
              history s p v now).1.length) := by
  refine ⟨?_, ?_, ?_⟩
  · simp only [evaluate_eq_filter, AlertEvaluator.load_alerts, Database.get_alerts,
      if_true, List.filter_filter, List.length_map]
    congr 1
    apply List.filter_congr
    intro a _
    exact Bool.and_comm _ _
  · simp only [evaluate_eq_filter, List.map_map]
    rfl
  · intro n
    simp [evaluateRun_length, evaluate_eq_filter]

/-- An enabled rule whose condition string is not one of the six operators. -/
def badConditionRule : AlertConfig := ⟨1, "bad", "BOOST", "between", 5, true, false⟩

/-- C6 counterexample: rule loading performs no validation and reports
nothing — the enabled unknown-condition rule passes `load_alerts` unchanged
(it is not rejected or excluded at load time), and the skip happens silently
inside `evaluate` at each reading instead. -/
theorem unknown_condition_not_reported_at_load :
    AlertEvaluator.load_alerts [badConditionRule] = [badConditionRule]
    ∧ AlertEvaluator.evaluate [badConditionRule] [] "S" "BOOST" 7 0 = ([], []) := by
  exact ⟨rfl, rfl⟩

/-- C6 amended: a rule with an unknown condition value is skipped entirely at
evaluation (it is never evaluated and produces no event and no history row for
any reading), but no error is reported at rule-load time: `load_alerts` passes
the enabled rule through unvalidated, and the rule is silently skipped again
at every evaluation. -/
theorem unknown_condition_silently_skipped (a : AlertConfig)
    (rest : List AlertConfig) (history : List AlertHistoryRow) (s p : String)
    (v now : ℚ) (hcond : AlertEvaluator.CONDITION_OPS a.condition = none)
    (hen : a.enabled = true) :
    AlertEvaluator.evaluate (a :: rest) history s p v now
        = AlertEvaluator.evaluate rest history s p v now
    ∧ AlertEvaluator.load_alerts (a :: rest)
        = a :: AlertEvaluator.load_alerts rest := by
  constructor
  · have hf : ruleFires p v a = false := by
      simp [ruleFires, hcond]
    simp [evaluate_eq_filter, List.filter_cons, hf]
  · simp [AlertEvaluator.load_alerts, Database.get_alerts, List.filter_cons, hen]

/-- Witness for `unknown_condition_silently_skipped` at the concrete
unknown-condition rule. -/
theorem unknown_condition_silently_skipped_witness :
    AlertEvaluator.evaluate (badConditionRule :: []) [] "S" "BOOST" 7 0
        = AlertEvaluator.evaluate [] [] "S" "BOOST" 7 0
    ∧ AlertEvaluator.load_alerts (badConditionRule :: [])
        = badConditionRule :: AlertEvaluator.load_alerts [] :=
  unknown_condition_silently_skipped badConditionRule [] [] "S" "BOOST" 7 0 rfl rfl

/-- In a client list with pairwise-distinct identity tokens, a key determines
its entry. -/
theorem client_key_unique {α : Type} {l : List (ℕ × ClientQueue α)}
    (hnodup : (l.map Prod.fst).Nodup) {i : ℕ} {q : ClientQueue α}
    (h1 : (i, q) ∈ l) {c : ℕ × ClientQueue α} (h2 : c ∈ l) (hc : c.1 = i) :
    c = (i, q) := by
  induction l with
  | nil => simp at h1
  | cons hd tl ih =>
    simp only [List.map_cons, List.nodup_cons] at hnodup
    rcases List.mem_cons.mp h1 with h1a | h1b
    · rcases List.mem_cons.mp h2 with h2a | h2b
      · rw [h2a, h1a]
      · exfalso
        apply hnodup.1
        have hm : c.1 ∈ List.map Prod.fst tl := List.mem_map_of_mem Prod.fst h2b
        rw [hc] at hm
        rw [← h1a]
        exact hm
    · rcases List.mem_cons.mp h2 with h2a | h2b
      · exfalso
        apply hnodup.1
        rw [h2a] at hc
        rw [hc]
        exact List.mem_map_of_mem Prod.fst h1b
      · exact ih hnodup.2 h1b h2b

/-- A client whose queue can still accept never drains during a publish
sequence: its queue accumulates every payload in order. -/
theorem broadcastSeq_no_drain {α : Type} (ps : List α) (i : ℕ) (acc : List α)
    (K : ℕ) (h : acc.length + ps.length ≤ K) :
    Broadcaster.broadcastSeq ps [(i, ⟨acc, K⟩)] = [(i, ⟨acc ++ ps, K⟩)] := by
  induction ps generalizing acc with
  | nil => simp [Broadcaster.broadcastSeq]
  | cons p rest ih =>
    have hlen : acc.length < K := by
      simp only [List.length_cons] at h
      omega
    have hfull : (ClientQueue.mk acc K).full = false := by
      simp only [ClientQueue.full, Bool.and_eq_false_iff]
      right
      simpa using hlen
    have hstep : Broadcaster.broadcast p [(i, ClientQueue.mk acc K)]
        = [(i, ClientQueue.mk (acc ++ [p]) K)] := by
      simp [Broadcaster.broadcast, ClientQueue.putNowait, hfull]
    have hrest : (acc ++ [p]).length + rest.length ≤ K := by
      simp only [List.length_append, List.length_singleton]
      simp only [List.length_cons] at h
      omega
    calc Broadcaster.broadcastSeq (p :: rest) [(i, ClientQueue.mk acc K)]
        = Broadcaster.broadcastSeq rest (Broadcaster.broadcast p [(i, ClientQueue.mk acc K)]) := rfl
      _ = Broadcaster.broadcastSeq rest [(i, ClientQueue.mk (acc ++ [p]) K)] := by rw [hstep]
      _ = [(i, ClientQueue.mk ((acc ++ [p]) ++ rest) K)] := ih (acc ++ [p]) hrest
      _ = [(i, ClientQueue.mk (acc ++ p :: rest) K)] := by simp

/-- C3: every publish delivers the payload by non-blocking enqueue to each
active subscriber whose queue is not full; a subscriber whose queue is full at
publish time is removed from the active set; delivery to one subscriber is
unaffected by any other subscriber's state; a fresh capacity-100 subscriber
which never drains holds all payloads through the first 100 publishes and is
evicted on the 101st. -/
theorem broadcast_fanout_and_eviction {α : Type} :
    (∀ (p : α) (clients : List (ℕ × ClientQueue α)) (i : ℕ) (q : ClientQueue α),
       (i, q) ∈ clients → q.full = false →
       (i, ClientQueue.mk (q.items ++ [p]) q.maxsize) ∈ Broadcaster.broadcast p clients)
    ∧ (∀ (p : α) (clients : List (ℕ × ClientQueue α)) (i : ℕ) (q : ClientQueue α),
       (clients.map Prod.fst).Nodup → (i, q) ∈ clients → q.full = true →
       ∀ q2 : ClientQueue α, (i, q2) ∉ Broadcaster.broadcast p clients)
    ∧ (∀ (p : α) (cs ds : List (ℕ × ClientQueue α)),
       Broadcaster.broadcast p (cs ++ ds)
         = Broadcaster.broadcast p cs ++ Broadcaster.broadcast p ds)
    ∧ (∀ (ps : List α) (i : ℕ), ps.length ≤ 100 →
       Broadcaster.broadcastSeq ps (Broadcaster.register [] i) = [(i, ⟨ps, 100⟩)])
    ∧ (∀ (ps : List α) (p : α) (i : ℕ), ps.length = 100 →
       Broadcaster.broadcastSeq (ps ++ [p]) (Broadcaster.register [] i) = []) := by
  refine ⟨?_, ?_, ?_, ?_, ?_⟩
  · intro p clients i q hmem hfull
    apply List.mem_filterMap.mpr
    refine ⟨(i, q), hmem, ?_⟩
    simp [ClientQueue.putNowait, hfull]
  · intro p clients i q hnodup hmem hfull q2 hq2
    rcases List.mem_filterMap.mp hq2 with ⟨c, hc, hput⟩
    rcases hput2 : c.2.putNowait p with _ | q3
    · rw [hput2] at hput
      simp at hput
    · rw [hput2] at hput
      simp only [Option.some.injEq, Prod.mk.injEq] at hput
      have hceq : c = (i, q) := client_key_unique hnodup hmem hc hput.1
      rw [hceq] at hput2
      simp only [ClientQueue.putNowait, hfull] at hput2
      simp at hput2
  · intro p cs ds
    simp [Broadcaster.broadcast, List.filterMap_append]
  · intro ps i hlen
    have h := broadcastSeq_no_drain ps i [] 100 (by simpa using hlen)
    simpa [Broadcaster.register] using h
  · intro ps p i hlen
    have h100 : Broadcaster.broadcastSeq ps (Broadcaster.register [] i) = [(i, ⟨ps, 100⟩)] := by
      have h := broadcastSeq_no_drain ps i [] 100 (by simp [hlen])
      simpa [Broadcaster.register] using h
    have hfull : (ClientQueue.mk ps 100).full = true := by
      simp [ClientQueue.full, hlen]
    calc Broadcaster.broadcastSeq (ps ++ [p]) (Broadcaster.register [] i)
        = Broadcaster.broadcast p (Broadcaster.broadcastSeq ps (Broadcaster.register [] i)) := by
          simp [Broadcaster.broadcastSeq, List.foldl_append]
      _ = Broadcaster.broadcast p [(i, ClientQueue.mk ps 100)] := by rw [h100]
      _ = [] := by simp [Broadcaster.broadcast, ClientQueue.putNowait, hfull]

/-- Witness for `broadcast_fanout_and_eviction`: a concrete never-draining
subscriber receiving 101 publishes is evicted, and a concrete subscriber with
a free slot receives the payload. -/
theorem broadcast_fanout_and_eviction_witness :
    Broadcaster.broadcastSeq (List.range 100 ++ [100])
        (Broadcaster.register ([] : List (ℕ × ClientQueue ℕ)) 7) = []
    ∧ (0, ClientQueue.mk ([5] : List ℕ) 100)
        ∈ Broadcaster.broadcast 5 [(0, ClientQueue.mk ([] : List ℕ) 100)] := by
  constructor
  · exact (broadcast_fanout_and_eviction (α := ℕ)).2.2.2.2 (List.range 100) 100 7 (by simp)
  · have h := (broadcast_fanout_and_eviction (α := ℕ)).1 5
      [(0, ClientQueue.mk [] 100)] 0 (ClientQueue.mk [] 100) (by simp) rfl
    simpa using h

/-- A concrete BOOST data point from the Reading Source. -/
def dpBoost : DataPoint := ⟨"BOOST", 22, "PSI", 5⟩

/-- C4 counterexample: a two-reading batch whose first reading's store insert
fails. The worker terminates with the error: the failing reading is not
forwarded downstream (no alert evaluation, no broadcast — the state is
unchanged) and the healthy second reading is never processed. -/
theorem worker_abort_counterexample :
    telemetry_stream_worker [] "S" ⟨[], [], []⟩
        [(dpBoost, false, 10), (dpBoost, true, 11)]
      = (⟨[], [], []⟩, some "insert_telemetry failed") := rfl

/-- C4 amended: the sampling loop has no per-reading error isolation. While
every insert succeeds the loop processes each reading (one broadcast per
reading) and finishes without error; the first reading whose store insert
fails raises out of the loop: that reading is not forwarded downstream, the
readings after it are never processed, and the worker terminates with the
error. -/
theorem worker_aborts_on_insert_failure (alert_configs : List AlertConfig)
    (s : String) (st : PipelineState) (pre post : List (DataPoint × Bool × ℚ))
    (dp : DataPoint) (now : ℚ) (hpre : ∀ x ∈ pre, x.2.1 = true) :
    (telemetry_stream_worker alert_configs s st pre).2 = none
    ∧ (telemetry_stream_worker alert_configs s st pre).1.broadcasts.length
        = st.broadcasts.length + pre.length
    ∧ telemetry_stream_worker alert_configs s st (pre ++ (dp, false, now) :: post)
        = ((telemetry_stream_worker alert_configs s st pre).1,
           some "insert_telemetry failed") := by
  induction pre generalizing st with
  | nil =>
    refine ⟨rfl, by simp [telemetry_stream_worker], ?_⟩
    simp [telemetry_stream_worker, processDataPoint]
  | cons x rest ih =>
    obtain ⟨dp0, ok0, now0⟩ := x
    have hok : ok0 = true := hpre (dp0, ok0, now0) (List.mem_cons_self _ _)
    subst hok
    have hpre2 : ∀ y ∈ rest, y.2.1 = true := fun y hy => hpre y (List.mem_cons_of_mem _ hy)
    obtain ⟨ih1, ih2, ih3⟩ := ih _ hpre2
    refine ⟨?_, ?_, ?_⟩
    · simpa [telemetry_stream_worker, processDataPoint] using ih1
    · have := ih2
      simp only [telemetry_stream_worker, processDataPoint, Bool.not_true,
        Bool.false_eq_true, if_false] at *
      simp [this]
      omega
    · simpa [telemetry_stream_worker, processDataPoint] using ih3

/-- Witness for `worker_aborts_on_insert_failure`: one healthy reading, then
one whose insert fails. -/
theorem worker_aborts_on_insert_failure_witness :
    (telemetry_stream_worker [] "S" ⟨[], [], []⟩ [(dpBoost, true, 1)]).2 = none
    ∧ (telemetry_stream_worker [] "S" ⟨[], [], []⟩ [(dpBoost, true, 1)]).1.broadcasts.length
        = (PipelineState.mk [] [] []).broadcasts.length + [(dpBoost, true, 1)].length
    ∧ telemetry_stream_worker [] "S" ⟨[], [], []⟩
        ([(dpBoost, true, 1)] ++ (dpBoost, false, 2) :: [])
      = ((telemetry_stream_worker [] "S" ⟨[], [], []⟩ [(dpBoost, true, 1)]).1,
         some "insert_telemetry failed") :=
  worker_aborts_on_insert_failure [] "S" ⟨[], [], []⟩ [(dpBoost, true, 1)] []
    dpBoost 2 (by
      intro x hx
      simp only [List.mem_singleton] at hx
      rw [hx])

/-- C5: `CloudSync.push` on a full (1000-element) queue suspends the caller
(`await queue.put` blocks when the queue is full), and its drop branch is
unreachable — no input ever yields `PushResult.dropped`, because `Queue.put`
never raises `QueueFull`. -/
theorem push_blocks_when_queue_full :
    CloudSync.push true (List.replicate 1000 (0 : ℕ)) 1 = PushResult.blocked
    ∧ (∀ (enabled : Bool) (q : List ℕ) (x : ℕ),
        CloudSync.push enabled q x ≠ PushResult.dropped) := by
  constructor
  · norm_num [CloudSync.push]
  · intro enabled q x
    by_cases he : enabled <;>
      by_cases hf : 1000 ≤ q.length <;>
        simp [CloudSync.push, he, hf]

/-- 100 readings of one session with timestamps clustered within one second,
just below the clock value 1000. -/
def hundredRows : List TelemetryRow :=
  (List.range 100).map
    (fun (i : ℕ) => ⟨"S", 999 + (i : ℚ) / 100, "RPM", (i : ℚ), "RPM"⟩)

/-- Every one of the hundred clustered readings lies inside a 600-second
window ending at clock 1000. -/
theorem hundredRows_filter :
    hundredRows.filter
        (fun r => r.session_id == "S" && decide ((1000 : ℚ) - 600 < r.timestamp))
      = hundredRows := by
  apply List.filter_eq_self.mpr
  intro a ha
  simp only [hundredRows, List.mem_map, List.mem_range] at ha
  obtain ⟨i, hi, rfl⟩ := ha
  have h0 : (0 : ℚ) ≤ (i : ℚ) / 100 := div_nonneg (Nat.cast_nonneg i) (by norm_num)
  simp only [Bool.and_eq_true, beq_iff_eq, decide_eq_true_eq]
  constructor
  · trivial
  · norm_num
    linarith

/-- C7: `get_recent_telemetry` returns exactly the session's readings with
timestamp strictly greater than now - window, in descending timestamp order;
in particular 100 readings clustered within the window are all returned, in
descending order. -/
theorem get_recent_telemetry_spec (rows : List TelemetryRow) (s : String)
    (now : ℚ) (seconds : ℚ) :
    (Database.get_recent_telemetry rows s now seconds).Perm
      (rows.filter (fun r => r.session_id == s && decide (now - seconds < r.timestamp)))
    ∧ List.Sorted tsDesc (Database.get_recent_telemetry rows s now seconds)
    ∧ (∀ r, r ∈ Database.get_recent_telemetry rows s now seconds ↔
        r ∈ rows ∧ r.session_id = s ∧ now - seconds < r.timestamp)
    ∧ (Database.get_recent_telemetry hundredRows "S" 1000 600).length = 100
    ∧ List.Sorted tsDesc (Database.get_recent_telemetry hundredRows "S" 1000 600) := by
  refine ⟨?_, ?_, ?_, ?_, ?_⟩
  · exact List.perm_insertionSort tsDesc _
  · exact List.sorted_insertionSort tsDesc _
  · intro r
    have heq : Database.get_recent_telemetry rows s now seconds
        = List.insertionSort tsDesc
            (rows.filter (fun r => r.session_id == s && decide (now - seconds < r.timestamp))) := rfl
    rw [heq, (List.perm_insertionSort tsDesc _).mem_iff, List.mem_filter]
    simp [Bool.and_eq_true, beq_iff_eq, decide_eq_true_eq, and_assoc]
  · have hperm : (Database.get_recent_telemetry hundredRows "S" 1000 600).Perm
        (hundredRows.filter
          (fun r => r.session_id == "S" && decide ((1000 : ℚ) - 600 < r.timestamp))) :=
      List.perm_insertionSort tsDesc _
    rw [hperm.length_eq, hundredRows_filter]
    simp only [hundredRows, List.length_map, List.length_range]
  · exact List.sorted_insertionSort tsDesc _

/-- Membership characterisation of `get_session_data`: a pure filter with
inclusive optional bounds, an omitted bound constraining nothing. -/
theorem get_session_data_mem (rows : List TelemetryRow) (s : String)
    (start_time end_time : Option ℚ) (r : TelemetryRow) :
    r ∈ Database.get_session_data rows s start_time end_time ↔
      r ∈ rows ∧ r.session_id = s
        ∧ (∀ a, start_time = some a → a ≤ r.timestamp)
        ∧ (∀ b, end_time = some b → r.timestamp ≤ b) := by
  have heq : Database.get_session_data rows s start_time end_time
      = List.insertionSort tsAsc (rows.filter (fun r => r.session_id == s
          && (match start_time with
              | some a => decide (a ≤ r.timestamp)
              | none => true)
          && (match end_time with
              | some b => decide (r.timestamp ≤ b)
              | none => true))) := rfl
  rw [heq, (List.perm_insertionSort tsAsc _).mem_iff, List.mem_filter]
  rcases start_time with _ | a <;> rcases end_time with _ | b <;>
    simp [Bool.and_eq_true, beq_iff_eq, decide_eq_true_eq, and_assoc]

/-- C8: `get_session_data` is a pure filter: a reading of the session is in
the result iff start <= timestamp <= end with both bounds inclusive, an
omitted bound constrains nothing, and the result is in ascending timestamp
order. -/
theorem get_session_data_spec (rows : List TelemetryRow) (s : String)
    (start_time end_time : Option ℚ) :
    (Database.get_session_data rows s start_time end_time).Perm
      (rows.filter (fun r => r.session_id == s
        && (match start_time with
            | some a => decide (a ≤ r.timestamp)
            | none => true)
        && (match end_time with
            | some b => decide (r.timestamp ≤ b)
            | none => true)))
    ∧ List.Sorted tsAsc (Database.get_session_data rows s start_time end_time)
    ∧ (∀ r, r ∈ Database.get_session_data rows s start_time end_time ↔
        r ∈ rows ∧ r.session_id = s
          ∧ (∀ a, start_time = some a → a ≤ r.timestamp)
          ∧ (∀ b, end_time = some b → r.timestamp ≤ b)) :=
  ⟨List.perm_insertionSort tsAsc _, List.sorted_insertionSort tsAsc _,
    fun r => get_session_data_mem rows s start_time end_time r⟩

/-- C9: a reading written via `insert_telemetry` and retrieved via
`get_session_data` with both bounds equal to its timestamp comes back with the
identical session, timestamp, pid, value and unit; on an empty store it is
returned exactly once with no field altered. -/
theorem insert_query_range_roundtrip (rows : List TelemetryRow)
    (s pid : String) (value : ℚ) (u : String) (t now : ℚ) :
    (⟨s, t, pid, value, u⟩ : TelemetryRow) ∈ Database.get_session_data
        (Database.insert_telemetry rows s pid value u (some t) now)
        s (some t) (some t)
    ∧ Database.get_session_data
        (Database.insert_telemetry [] s pid value u (some t) now)
        s (some t) (some t)
      = [⟨s, t, pid, value, u⟩] := by
  constructor
  · rw [get_session_data_mem]
    refine ⟨?_, rfl, ?_, ?_⟩
    · simp [Database.insert_telemetry]
    · intro a ha
      obtain rfl := Option.some_inj.mp ha
      exact le_refl _
    · intro b hb
      obtain rfl := Option.some_inj.mp hb
      exact le_refl _
  · simp [Database.get_session_data, Database.insert_telemetry, List.filter_cons,
      List.insertionSort]

/-- C10: `insert_telemetry` called without an explicit timestamp — as the
sampling pipeline always calls it — stamps the row with the store's own clock;
for every data point the pipeline persists, the stored timestamp is the
store's insertion time, independent of the timestamp carried on the data
point from the Source. -/
theorem insert_default_timestamp_is_store_clock (rows : List TelemetryRow)
    (s pid : String) (value : ℚ) (u : String) (now : ℚ)
    (alert_configs : List AlertConfig) (st : PipelineState) (dp : DataPoint) :
    Database.insert_telemetry rows s pid value u none now
        = rows ++ [⟨s, now, pid, value, u⟩]
    ∧ (processDataPoint alert_configs s st dp true now).map
          (fun st2 => st2.telemetry_data)
        = some (st.telemetry_data ++ [⟨s, now, dp.pid, dp.value, dp.unit⟩])
    ∧ (∀ ts1 ts2 : ℚ,
        (processDataPoint alert_configs s st ⟨dp.pid, dp.value, dp.unit, ts1⟩
            true now).map (fun st2 => st2.telemetry_data)
          = (processDataPoint alert_configs s st ⟨dp.pid, dp.value, dp.unit, ts2⟩
            true now).map (fun st2 => st2.telemetry_data)) := by
  refine ⟨rfl, ?_, ?_⟩
  · simp [processDataPoint, Database.insert_telemetry]
  · intro ts1 ts2
    simp [processDataPoint, Database.insert_telemetry]

/-- Witness for `evaluate_condition_operator_semantics` at the concrete BOOST
rule and value 21. -/
theorem evaluate_condition_operator_semantics_witness :
    triggersAlert ⟨1, "boost", "BOOST", "gt", 20, true, false⟩ "S" "BOOST" 21 0 :=
  (evaluate_condition_operator_semantics 21 20 0 1 "boost" "S" "BOOST"
    true false).2.2.2.2.2.2.1

/-- Witness for `push_blocks_when_queue_full` at a concrete empty queue. -/
theorem push_blocks_when_queue_full_witness :
    CloudSync.push true (List.replicate 1000 (0 : ℕ)) 1 = PushResult.blocked
    ∧ CloudSync.push true ([] : List ℕ) 1 ≠ PushResult.dropped :=
  ⟨push_blocks_when_queue_full.1, push_blocks_when_queue_full.2 true [] 1⟩

/-- Witness for `get_session_data_spec` at a concrete one-row store with both
bounds equal to the row timestamp. -/
theorem get_session_data_spec_witness :
    (⟨"S", 5, "RPM", 1, "u"⟩ : TelemetryRow) ∈ Database.get_session_data
        [⟨"S", 5, "RPM", 1, "u"⟩] "S" (some 5) (some 5) :=
  ((get_session_data_spec [⟨"S", 5, "RPM", 1, "u"⟩] "S" (some 5) (some 5)).2.2 _).mpr
    ⟨List.mem_singleton_self _, rfl,
      fun a ha => le_of_eq (Option.some_inj.mp ha).symm,
      fun b hb => le_of_eq (Option.some_inj.mp hb)⟩
